import Mathlib

/-!
Shallow embedding of the Resume-Ranker application (src/app.py).

The program is a straight-line pipeline: upload a job description and up
to 10 resume PDFs, extract text from each PDF, score each resume with a
remote LLM chat call, clamp or sentinel the score, sort descending and
display.  External effects are modelled explicitly:

- the PDF library (fitz) is an oracle: a resume file carries either its
  list of page texts or an exception message;
- the LLM call is an oracle function from the message list to either a
  reply string or an exception message;
- every user-visible UI effect (st.error, st.warning, st.markdown of a
  ranked line, and the calls into the extractor and the LLM) is recorded
  as an `Event` in a trace, in program order.

Scores are modelled as rationals; all numeric literals appearing in the
claims ("150", "-20", "73.5") are exactly representable, so the rational
model agrees with IEEE doubles on every value considered here.
-/

/-- User-visible effects and external calls of one run, in program order.
Each constructor corresponds to one `st.*` call or one external call in
src/app.py. -/
inductive Event where
  /-- st.warning "Please upload no more than 10 resumes." (line 72) -/
  | warnTooMany : Event
  /-- st.error "Could not read Job Description file: ..." (line 79) -/
  | errorJDRead : Event
  /-- the call `extract_text_from_pdf(file)` made for a file (line 85) -/
  | extractCall (name : String) : Event
  /-- st.error "Error reading PDF file: ..." inside the extractor (line 17) -/
  | errorPDF (msg : String) : Event
  /-- st.warning "No text extracted from resume: ..." (line 88) -/
  | warnNoText (name : String) : Event
  /-- st.error "No resume texts available to score." (line 92) -/
  | errorNoTexts : Event
  /-- st.error "Azure OpenAI environment variables are not set. ..." (line 102) -/
  | errorConfig : Event
  /-- the chat-completion call `llm(messages)` made for a resume (line 39) -/
  | llmCall (name : String) : Event
  /-- st.warning "Could not score resume ...: ..." naming the resume (line 44) -/
  | warnScore (name : String) : Event
  /-- st.markdown of one ranked line: rank, name, score, and whether the
  sentinel marker "N/A" is shown in place of the score (lines 130-132) -/
  | display (rank : Nat) (name : String) (score : ℚ) (na : Bool) : Event
deriving DecidableEq, Repr

/-- Chat messages as built by score_resume (langchain SystemMessage and
HumanMessage, lines 34-37). -/
inductive Message where
  | system (content : String) : Message
  | human (content : String) : Message
deriving DecidableEq, Repr

/-- An uploaded resume file: its filename and what the PDF library yields
for it, either the page texts in document order or an exception message. -/
structure PDFFile where
  name : String
  content : Except String (List String)
deriving Repr

/-- The four environment variables read at lines 96-99; `none` models an
unset variable. -/
structure EnvConfig where
  apiKey : Option String
  endpoint : Option String
  deployment : Option String
  apiVersion : Option String
deriving DecidableEq, Repr

/-- One entry of the `scores` list built at line 121: a resume name paired
with its score or the sentinel -1. -/
structure ScoreResult where
  name : String
  score : ℚ
deriving DecidableEq, Repr

/-- Python truthiness of an optional string, as used by
`if not all([KEY, ENDPOINT, DEPLOYMENT])` at line 101: an unset variable
and an empty string are both falsy. -/
def truthy : Option String → Bool
  | none => false
  | some s => !(s == "")

/-- The whitespace characters removed by Python str.strip(): space, tab,
newline, carriage return, vertical tab, form feed. -/
def isPySpace (c : Char) : Bool :=
  c == ' ' || c == '\t' || c == '\n' || c == '\r' || c == '\x0b' || c == '\x0c'

/-- Python str.strip(): remove leading and trailing whitespace. -/
def pyStrip (s : String) : String :=
  (((s.toList.dropWhile isPySpace).reverse.dropWhile isPySpace).reverse).asString

/-- Value of a list of decimal digit characters, most significant first. -/
def digitsVal (cs : List Char) : Nat :=
  cs.foldl (fun n c => 10 * n + (c.toNat - 48)) 0

/-- Python float() on a decimal literal: optional sign, digits with an
optional fraction part (at least one digit overall), optional exponent.
Returns none exactly when Python float() raises ValueError on such
strings.  Infinity and NaN spellings and underscore separators are
outside this rational model; no claim exercises them. -/
def pyFloat (s : String) : Option ℚ :=
  let cs := s.toList
  let signAndRest : Int × List Char :=
    match cs with
    | '+' :: rest => (1, rest)
    | '-' :: rest => (-1, rest)
    | _ => (1, cs)
  let cs0 := signAndRest.2
  let ip := cs0.takeWhile Char.isDigit
  let cs1 := cs0.dropWhile Char.isDigit
  let fracAndRest : List Char × List Char :=
    match cs1 with
    | '.' :: rest => (rest.takeWhile Char.isDigit, rest.dropWhile Char.isDigit)
    | _ => ([], cs1)
  let fp := fracAndRest.1
  let cs2 := fracAndRest.2
  if ip.isEmpty && fp.isEmpty then none
  else
    let num : Int := signAndRest.1 * (digitsVal ip * 10 ^ fp.length + digitsVal fp)
    let den : Nat := 10 ^ fp.length
    match cs2 with
    | [] => some (Rat.divInt num den)
    | c :: rest =>
      if c == 'e' || c == 'E' then
        let esignAndRest : Bool × List Char :=
          match rest with
          | '+' :: r => (true, r)
          | '-' :: r => (false, r)
          | _ => (true, rest)
        let ed := esignAndRest.2.takeWhile Char.isDigit
        let rest2 := esignAndRest.2.dropWhile Char.isDigit
        if ed.isEmpty || !rest2.isEmpty then none
        else if esignAndRest.1 then some (Rat.divInt (num * 10 ^ digitsVal ed) den)
        else some (Rat.divInt num (den * 10 ^ digitsVal ed))
      else none

/-- extract_text_from_pdf (src/app.py lines 8-18).  The fitz oracle either
yields the page texts, which the loop concatenates left to right starting
from the empty string, or raises: then an error is shown and the empty
string is returned. -/
def extract_text_from_pdf (file : Except String (List String)) : String × List Event :=
  match file with
  | Except.ok pages => (pages.foldl (fun t p => t ++ p) "", [])
  | Except.error e => ("", [Event.errorPDF e])

/-- The fixed two-part prompt built by score_resume (src/app.py lines
22-37): a system instruction fixing the scale and a user message
embedding both texts verbatim with delimiter markers. -/
def mkMessages (jd_text resume_text resume_name : String) : List Message :=
  let system_prompt :=
    "You are a helpful assistant that scores how well a resume matches a job description. " ++
    "Score on a scale of 0 to 100, where 0 means no match and 100 means perfect fit. " ++
    "Provide only the score as a number."
  let query :=
    "Job Description:\n---\n" ++ jd_text ++ "\n---\n" ++
    "Resume (" ++ resume_name ++ "):\n---\n" ++ resume_text ++ "\n---\n" ++
    "On a scale from 0 to 100, how well does this resume match the job description? " ++
    "Reply only with the numeric score."
  [Message.system system_prompt, Message.human query]

/-- The try/except body of score_resume (src/app.py lines 38-45) given
the outcome of the chat call: on success the reply is stripped, parsed as
a float and clamped into [0, 100]; on a call error or a parse failure a
warning naming the resume is surfaced and the sentinel -1 is returned.
The trace records the LLM call and any warning. -/
def scoreReply (resp : Except String String) (resume_name : String) : ℚ × List Event :=
  match resp with
  | Except.error _ => (-1, [Event.llmCall resume_name, Event.warnScore resume_name])
  | Except.ok content =>
    match pyFloat (pyStrip content) with
    | none => (-1, [Event.llmCall resume_name, Event.warnScore resume_name])
    | some score => (max 0 (min 100 score), [Event.llmCall resume_name])

/-- score_resume (src/app.py lines 21-45): build the prompt, invoke the
LLM oracle on it, and handle the reply. -/
def score_resume (llm : List Message → Except String String)
    (jd_text resume_text resume_name : String) : ℚ × List Event :=
  scoreReply (llm (mkMessages jd_text resume_text resume_name)) resume_name

/-- Python dict assignment `d[k] = v` on an insertion-ordered dict: an
existing key keeps its position and gets the new value, a new key is
appended at the end. -/
def dictInsert (k : String) (v : String) : List (String × String) → List (String × String)
  | [] => [(k, v)]
  | (k', v') :: rest => if k' == k then (k, v) :: rest else (k', v') :: dictInsert k v rest

/-- Extraction loop of main (src/app.py lines 83-89): for each file call
the extractor, warn when the stripped text is empty, and store the text
in the dict under the filename.  Returns the dict and the trace. -/
def extractAll (acc : List (String × String)) :
    List PDFFile → List (String × String) × List Event
  | [] => (acc, [])
  | f :: fs =>
    let text := (extract_text_from_pdf f.content).1
    let evs := (extract_text_from_pdf f.content).2
    let warn := if pyStrip text == "" then [Event.warnNoText f.name] else []
    let rest := extractAll (dictInsert f.name text acc) fs
    (rest.1, (Event.extractCall f.name :: evs ++ warn) ++ rest.2)

/-- Scoring loop of main (src/app.py lines 117-123): score each dict entry
in order and collect one ScoreResult per entry. -/
def scoreAll (llm : List Message → Except String String) (jd_text : String) :
    List (String × String) → List ScoreResult × List Event
  | [] => ([], [])
  | e :: rest =>
    let score := (score_resume llm jd_text e.2 e.1).1
    let evs := (score_resume llm jd_text e.2 e.1).2
    let tail := scoreAll llm jd_text rest
    (⟨e.1, score⟩ :: tail.1, evs ++ tail.2)

/-- Stable insertion of a score entry into a descending list: the entry
goes after every strictly higher score and before every equal or lower
one, so earlier-submitted entries stay first among equal scores. -/
def insertDesc (x : ScoreResult) : List ScoreResult → List ScoreResult
  | [] => [x]
  | y :: ys => if x.score < y.score then y :: insertDesc x ys else x :: y :: ys

/-- The sort at line 126, `sorted(scores, key=score, reverse=True)`:
Python sorted is stable, and reverse=True reverses the comparison while
keeping stability, so this is the stable descending sort by score. -/
def sortScores : List ScoreResult → List ScoreResult
  | [] => []
  | x :: xs => insertDesc x (sortScores xs)

/-- Display loop of main (src/app.py lines 129-132): enumerate the ranked
list from 1 and emit one line per entry, marking N/A when the score is
the sentinel -1. -/
def displayRanked : Nat → List ScoreResult → List Event
  | _, [] => []
  | i, r :: rs => Event.display i r.name r.score (decide (r.score = -1)) :: displayRanked (i + 1) rs

/-- Whether an event is a displayed ranking line (an st.markdown call of
the results loop, lines 130-132). -/
def isDisplayEvent : Event → Bool
  | Event.display _ _ _ _ => true
  | _ => false

/-- Whether the three required configuration values are all set and
non-empty, i.e. `all([KEY, ENDPOINT, DEPLOYMENT])` at line 101. -/
def configOk (env : EnvConfig) : Bool :=
  truthy env.apiKey && truthy env.endpoint && truthy env.deployment

/-- main (src/app.py lines 48-132) as a trace function; written main'
because the bare name is reserved for executable entry points.  Inputs:
the job description upload (none when absent, otherwise the result of
reading and UTF-8 decoding it), the uploaded resume files, the
environment, and the LLM oracle.  Returns the user-visible trace of the
run. -/
def main' (jd_file : Option (Except String String)) (resume_files : List PDFFile)
    (env : EnvConfig) (llm : List Message → Except String String) : List Event :=
  match jd_file with
  | none => []
  | some jdRes =>
    if resume_files.isEmpty then []
    else if resume_files.length > 10 then [Event.warnTooMany]
    else
      match jdRes with
      | Except.error _ => [Event.errorJDRead]
      | Except.ok jd_text =>
        let resumes_texts := (extractAll [] resume_files).1
        let extractEvents := (extractAll [] resume_files).2
        if resumes_texts.length == 0 then extractEvents ++ [Event.errorNoTexts]
        else if !(configOk env) then extractEvents ++ [Event.errorConfig]
        else
          let scored := scoreAll llm jd_text resumes_texts
          extractEvents ++ scored.2 ++ displayRanked 1 (sortScores scored.1)

/-! ### Helper lemmas about the sort -/

/-- Descending comparison used by the ranking: a precedes b when the score
of b does not exceed the score of a. -/
def scoreGE (a b : ScoreResult) : Prop := b.score ≤ a.score

theorem insertDesc_perm (x : ScoreResult) (l : List ScoreResult) :
    List.Perm (insertDesc x l) (x :: l) := by
  induction l with
  | nil => exact List.Perm.refl _
  | cons y ys ih =>
    by_cases h : x.score < y.score
    · rw [insertDesc, if_pos h]
      exact (ih.cons y).trans (List.Perm.swap x y ys)
    · rw [insertDesc, if_neg h]

theorem sortScores_perm (l : List ScoreResult) :
    List.Perm (sortScores l) l := by
  induction l with
  | nil => exact List.Perm.refl _
  | cons x xs ih =>
    exact (insertDesc_perm x (sortScores xs)).trans (ih.cons x)

theorem insertDesc_pairwise (x : ScoreResult) (l : List ScoreResult)
    (h : l.Pairwise scoreGE) : (insertDesc x l).Pairwise scoreGE := by
  induction l with
  | nil => simp [insertDesc, scoreGE]
  | cons y ys ih =>
    rcases List.pairwise_cons.mp h with ⟨hy, hys⟩
    by_cases hlt : x.score < y.score
    · rw [insertDesc, if_pos hlt]
      refine List.pairwise_cons.mpr ⟨?_, ih hys⟩
      intro z hz
      rcases List.mem_cons.mp ((insertDesc_perm x ys).mem_iff.mp hz) with rfl | hz2
      · exact le_of_lt hlt
      · exact hy z hz2
    · rw [insertDesc, if_neg hlt]
      refine List.pairwise_cons.mpr ⟨?_, h⟩
      intro z hz
      rcases List.mem_cons.mp hz with rfl | hz2
      · exact not_lt.mp hlt
      · exact le_trans (hy z hz2) (not_lt.mp hlt)

theorem sortScores_pairwise (l : List ScoreResult) :
    (sortScores l).Pairwise scoreGE := by
  induction l with
  | nil => exact List.Pairwise.nil
  | cons x xs ih => exact insertDesc_pairwise x (sortScores xs) ih

theorem insertDesc_filter_ne (x : ScoreResult) (l : List ScoreResult) (s : ℚ)
    (hs : x.score ≠ s) :
    (insertDesc x l).filter (fun r => decide (r.score = s)) =
      l.filter (fun r => decide (r.score = s)) := by
  induction l with
  | nil => simp [insertDesc, hs]
  | cons y ys ih =>
    by_cases hlt : x.score < y.score
    · rw [insertDesc, if_pos hlt]
      by_cases hy : y.score = s
      · simp [List.filter_cons, hy, ih]
      · simp [List.filter_cons, hy, ih]
    · rw [insertDesc, if_neg hlt]
      simp [List.filter_cons, hs]

theorem insertDesc_filter_self (x : ScoreResult) (l : List ScoreResult) :
    (insertDesc x l).filter (fun r => decide (r.score = x.score)) =
      x :: l.filter (fun r => decide (r.score = x.score)) := by
  induction l with
  | nil => simp [insertDesc]
  | cons y ys ih =>
    by_cases hlt : x.score < y.score
    · rw [insertDesc, if_pos hlt]
      have hy : ¬(y.score = x.score) := fun h => absurd hlt (by rw [h]; exact lt_irrefl _)
      simp [List.filter_cons, hy, ih]
    · rw [insertDesc, if_neg hlt]
      simp [List.filter_cons]

theorem sortScores_filter (l : List ScoreResult) (s : ℚ) :
    (sortScores l).filter (fun r => decide (r.score = s)) =
      l.filter (fun r => decide (r.score = s)) := by
  induction l with
  | nil => rfl
  | cons x xs ih =>
    rw [sortScores]
    by_cases hx : x.score = s
    · subst hx
      rw [insertDesc_filter_self, ih, List.filter_cons]
      simp
    · rw [insertDesc_filter_ne x _ s hx, ih, List.filter_cons]
      simp [hx]

theorem sortScores_length (l : List ScoreResult) :
    (sortScores l).length = l.length :=
  (sortScores_perm l).length_eq

/-! ### Helper lemmas about the dict and the pipeline loops -/

theorem dictInsert_keys (k v : String) (d : List (String × String)) :
    (dictInsert k v d).map Prod.fst =
      if k ∈ d.map Prod.fst then d.map Prod.fst else d.map Prod.fst ++ [k] := by
  induction d with
  | nil => simp [dictInsert]
  | cons p rest ih =>
    obtain ⟨a, b⟩ := p
    by_cases h : a = k
    · subst h
      simp [dictInsert]
    · have hb : (a == k) = false := by simp [h]
      have hstep : dictInsert k v ((a, b) :: rest) = (a, b) :: dictInsert k v rest := by
        rw [dictInsert, hb]; rfl
      have hmemiff : (k ∈ ((a, b) :: rest).map Prod.fst) ↔ (k ∈ rest.map Prod.fst) := by
        simp only [List.map_cons, List.mem_cons]
        constructor
        · intro hkc
          rcases hkc with h1 | h2
          · exact absurd h1.symm h
          · exact h2
        · exact Or.inr
      by_cases hm : k ∈ rest.map Prod.fst
      · rw [hstep, List.map_cons, ih, if_pos hm, if_pos (hmemiff.mpr hm), List.map_cons]
      · rw [hstep, List.map_cons, ih, if_neg hm, if_neg (fun hc => hm (hmemiff.mp hc)),
          List.map_cons]
        rfl

theorem mem_dictInsert_keys_self (k v : String) (d : List (String × String)) :
    k ∈ (dictInsert k v d).map Prod.fst := by
  rw [dictInsert_keys]
  by_cases hm : k ∈ d.map Prod.fst <;> simp [hm]

theorem mem_dictInsert_keys_of_mem (k v : String) (d : List (String × String)) (x : String)
    (h : x ∈ d.map Prod.fst) : x ∈ (dictInsert k v d).map Prod.fst := by
  rw [dictInsert_keys]
  by_cases hm : k ∈ d.map Prod.fst <;> simp [hm, h]

theorem dictInsert_length_of_not_mem (k v : String) (d : List (String × String))
    (h : k ∉ d.map Prod.fst) : (dictInsert k v d).length = d.length + 1 := by
  have hkeys := congrArg List.length (dictInsert_keys k v d)
  rw [if_neg h] at hkeys
  simpa using hkeys

theorem mem_keys_of_dictInsert (k v : String) (d : List (String × String)) (x : String)
    (h : x ∈ (dictInsert k v d).map Prod.fst) : x = k ∨ x ∈ d.map Prod.fst := by
  rw [dictInsert_keys] at h
  by_cases hm : k ∈ d.map Prod.fst
  · rw [if_pos hm] at h
    exact Or.inr h
  · rw [if_neg hm] at h
    rcases List.mem_append.mp h with h1 | h2
    · exact Or.inr h1
    · simp at h2
      exact Or.inl h2

theorem extractAll_cons_fst (acc : List (String × String)) (f : PDFFile) (fs : List PDFFile) :
    (extractAll acc (f :: fs)).1 =
      (extractAll (dictInsert f.name (extract_text_from_pdf f.content).1 acc) fs).1 := rfl

theorem extractAll_cons_snd (acc : List (String × String)) (f : PDFFile) (fs : List PDFFile) :
    (extractAll acc (f :: fs)).2 =
      (Event.extractCall f.name :: (extract_text_from_pdf f.content).2 ++
        (if pyStrip (extract_text_from_pdf f.content).1 == "" then [Event.warnNoText f.name]
          else [])) ++
      (extractAll (dictInsert f.name (extract_text_from_pdf f.content).1 acc) fs).2 := rfl

theorem extractAll_fst_keys_mono (fs : List PDFFile) (acc : List (String × String)) (x : String)
    (h : x ∈ acc.map Prod.fst) : x ∈ (extractAll acc fs).1.map Prod.fst := by
  induction fs generalizing acc with
  | nil => simpa [extractAll] using h
  | cons f fs ih =>
    rw [extractAll_cons_fst]
    exact ih _ (mem_dictInsert_keys_of_mem _ _ _ _ h)

theorem extractAll_mem_keys (fs : List PDFFile) (acc : List (String × String)) (f : PDFFile)
    (hf : f ∈ fs) : f.name ∈ (extractAll acc fs).1.map Prod.fst := by
  induction fs generalizing acc with
  | nil => cases hf
  | cons g gs ih =>
    rw [extractAll_cons_fst]
    rcases List.mem_cons.mp hf with rfl | h2
    · exact extractAll_fst_keys_mono _ _ _ (mem_dictInsert_keys_self _ _ _)
    · exact ih _ h2

theorem extractAll_fst_ne_nil (fs : List PDFFile) (acc : List (String × String))
    (h : fs ≠ []) : (extractAll acc fs).1 ≠ [] := by
  cases fs with
  | nil => exact absurd rfl h
  | cons f fs =>
    have hmem := extractAll_mem_keys (f :: fs) acc f (List.mem_cons_self f fs)
    intro hnil
    rw [hnil] at hmem
    simp at hmem

theorem extract_events_shape (c : Except String (List String)) (e : Event)
    (he : e ∈ (extract_text_from_pdf c).2) : ∃ m, e = Event.errorPDF m := by
  cases c with
  | ok pages => simp [extract_text_from_pdf] at he
  | error m =>
    simp [extract_text_from_pdf] at he
    exact ⟨m, he⟩

theorem extractAll_events_shape (fs : List PDFFile) (acc : List (String × String)) (e : Event)
    (he : e ∈ (extractAll acc fs).2) :
    (∃ n, e = Event.extractCall n) ∨ (∃ m, e = Event.errorPDF m) ∨
      (∃ n, e = Event.warnNoText n) := by
  induction fs generalizing acc with
  | nil => simp [extractAll] at he
  | cons f fs ih =>
    rw [extractAll_cons_snd] at he
    rcases List.mem_append.mp he with h1 | h2
    · rcases List.mem_cons.mp h1 with rfl | h3
      · exact Or.inl ⟨_, rfl⟩
      · rcases List.mem_append.mp h3 with h4 | h5
        · rcases extract_events_shape _ _ h4 with ⟨m, rfl⟩
          exact Or.inr (Or.inl ⟨m, rfl⟩)
        · by_cases hw : pyStrip (extract_text_from_pdf f.content).1 == ""
          · rw [if_pos hw] at h5
            simp at h5
            exact Or.inr (Or.inr ⟨f.name, h5⟩)
          · rw [if_neg hw] at h5
            simp at h5
    · exact Or.inr (ih _ h2) |>.elim (fun h => Or.inr h) Or.inr |>.elim Or.inl id

theorem scoreReply_events_shape (resp : Except String String) (name : String) (e : Event)
    (he : e ∈ (scoreReply resp name).2) :
    e = Event.llmCall name ∨ e = Event.warnScore name := by
  cases resp with
  | error m => simpa [scoreReply] using he
  | ok content =>
    rw [scoreReply] at he
    cases hp : pyFloat (pyStrip content) with
    | none => rw [hp] at he; simpa using he
    | some v => rw [hp] at he; simp at he; exact Or.inl he

theorem scoreAll_cons_fst (llm : List Message → Except String String) (jd : String)
    (e : String × String) (rest : List (String × String)) :
    (scoreAll llm jd (e :: rest)).1 =
      ⟨e.1, (score_resume llm jd e.2 e.1).1⟩ :: (scoreAll llm jd rest).1 := rfl

theorem scoreAll_cons_snd (llm : List Message → Except String String) (jd : String)
    (e : String × String) (rest : List (String × String)) :
    (scoreAll llm jd (e :: rest)).2 =
      (score_resume llm jd e.2 e.1).2 ++ (scoreAll llm jd rest).2 := rfl

theorem scoreAll_names (llm : List Message → Except String String) (jd : String)
    (entries : List (String × String)) :
    (scoreAll llm jd entries).1.map ScoreResult.name = entries.map Prod.fst := by
  induction entries with
  | nil => rfl
  | cons e rest ih => rw [scoreAll_cons_fst, List.map_cons, List.map_cons, ih]

theorem scoreAll_length (llm : List Message → Except String String) (jd : String)
    (entries : List (String × String)) :
    (scoreAll llm jd entries).1.length = entries.length := by
  have h := congrArg List.length (scoreAll_names llm jd entries)
  simpa using h

theorem scoreAll_events_shape (llm : List Message → Except String String) (jd : String)
    (entries : List (String × String)) (e : Event)
    (he : e ∈ (scoreAll llm jd entries).2) :
    (∃ n, e = Event.llmCall n) ∨ (∃ n, e = Event.warnScore n) := by
  induction entries with
  | nil => simp [scoreAll] at he
  | cons p rest ih =>
    rw [scoreAll_cons_snd] at he
    rcases List.mem_append.mp he with h1 | h2
    · rcases scoreReply_events_shape _ _ _ h1 with h | h
      · exact Or.inl ⟨p.1, h⟩
      · exact Or.inr ⟨p.1, h⟩
    · exact ih h2

theorem scoreAll_mem (llm : List Message → Except String String) (jd : String)
    (entries : List (String × String)) (p : String × String) (hp : p ∈ entries) :
    (⟨p.1, (score_resume llm jd p.2 p.1).1⟩ : ScoreResult) ∈ (scoreAll llm jd entries).1 := by
  induction entries with
  | nil => cases hp
  | cons q rest ih =>
    rw [scoreAll_cons_fst]
    rcases List.mem_cons.mp hp with rfl | h2
    · exact List.mem_cons_self _ _
    · exact List.mem_cons_of_mem _ (ih h2)

theorem displayRanked_length (i : Nat) (l : List ScoreResult) :
    (displayRanked i l).length = l.length := by
  induction l generalizing i with
  | nil => rfl
  | cons r rs ih => rw [displayRanked, List.length_cons, List.length_cons, ih]

theorem displayRanked_shape (i : Nat) (l : List ScoreResult) (e : Event)
    (he : e ∈ displayRanked i l) : ∃ k n s b, e = Event.display k n s b := by
  induction l generalizing i with
  | nil => simp [displayRanked] at he
  | cons r rs ih =>
    rw [displayRanked] at he
    rcases List.mem_cons.mp he with rfl | h2
    · exact ⟨_, _, _, _, rfl⟩
    · exact ih _ h2

theorem displayRanked_mem (i : Nat) (l : List ScoreResult) (r : ScoreResult) (hr : r ∈ l) :
    ∃ k, Event.display k r.name r.score (decide (r.score = -1)) ∈ displayRanked i l := by
  induction l generalizing i with
  | nil => cases hr
  | cons q rs ih =>
    rw [displayRanked]
    rcases List.mem_cons.mp hr with rfl | h2
    · exact ⟨i, List.mem_cons_self _ _⟩
    · rcases ih (i + 1) h2 with ⟨k, hk⟩
      exact ⟨k, List.mem_cons_of_mem _ hk⟩

theorem main'_too_many (jdRes : Except String String) (files : List PDFFile) (env : EnvConfig)
    (llm : List Message → Except String String) (hlen : files.length > 10) :
    main' (some jdRes) files env llm = [Event.warnTooMany] := by
  have h1 : files.isEmpty = false := by
    cases files with
    | nil => simp at hlen
    | cons f fs => rfl
  simp only [main', h1, Bool.false_eq_true, if_false, if_pos hlen]

theorem main'_jd_error (e : String) (files : List PDFFile) (env : EnvConfig)
    (llm : List Message → Except String String)
    (hne : files ≠ []) (hlen : files.length ≤ 10) :
    main' (some (Except.error e)) files env llm = [Event.errorJDRead] := by
  have h1 : files.isEmpty = false := by
    cases files with
    | nil => exact absurd rfl hne
    | cons f fs => rfl
  have h2 : ¬(files.length > 10) := not_lt.mpr hlen
  simp only [main', h1, Bool.false_eq_true, if_false, if_neg h2]

theorem main'_config_missing (jd : String) (files : List PDFFile) (env : EnvConfig)
    (llm : List Message → Except String String)
    (hne : files ≠ []) (hlen : files.length ≤ 10) (hcfg : configOk env = false) :
    main' (some (Except.ok jd)) files env llm =
      (extractAll [] files).2 ++ [Event.errorConfig] := by
  have h1 : files.isEmpty = false := by
    cases files with
    | nil => exact absurd rfl hne
    | cons f fs => rfl
  have h2 : ¬(files.length > 10) := not_lt.mpr hlen
  have h3 : ((extractAll [] files).1.length == 0) = false := by
    have hn := extractAll_fst_ne_nil files [] hne
    cases hl : (extractAll [] files).1 with
    | nil => exact absurd hl hn
    | cons a rest => rfl
  simp only [main', h1, Bool.false_eq_true, if_false, if_neg h2, h3, hcfg, Bool.not_false,
    if_true]

theorem main'_run (jd : String) (files : List PDFFile) (env : EnvConfig)
    (llm : List Message → Except String String)
    (hne : files ≠ []) (hlen : files.length ≤ 10) (hcfg : configOk env = true) :
    main' (some (Except.ok jd)) files env llm =
      (extractAll [] files).2 ++
        (scoreAll llm jd (extractAll [] files).1).2 ++
        displayRanked 1 (sortScores (scoreAll llm jd (extractAll [] files).1).1) := by
  have h1 : files.isEmpty = false := by
    cases files with
    | nil => exact absurd rfl hne
    | cons f fs => rfl
  have h2 : ¬(files.length > 10) := not_lt.mpr hlen
  have h3 : ((extractAll [] files).1.length == 0) = false := by
    have hn := extractAll_fst_ne_nil files [] hne
    cases hl : (extractAll [] files).1 with
    | nil => exact absurd hl hn
    | cons a rest => rfl
  simp only [main', h1, Bool.false_eq_true, if_false, if_neg h2, h3, hcfg, Bool.not_true,
    if_false]

theorem extractAll_fst_length_nodup (fs : List PDFFile) (acc : List (String × String))
    (hnd : (fs.map PDFFile.name).Nodup)
    (hdisj : ∀ f ∈ fs, f.name ∉ acc.map Prod.fst) :
    (extractAll acc fs).1.length = acc.length + fs.length := by
  induction fs generalizing acc with
  | nil => simp [extractAll]
  | cons f fs ih =>
    rw [extractAll_cons_fst]
    have hnotmem : f.name ∉ acc.map Prod.fst := hdisj f (List.mem_cons_self f fs)
    rw [List.map_cons] at hnd
    rcases List.nodup_cons.mp hnd with ⟨hhead, htail⟩
    rw [ih _ htail ?_]
    · rw [dictInsert_length_of_not_mem _ _ _ hnotmem, List.length_cons]
      omega
    · intro g hg hmem
      rcases mem_keys_of_dictInsert _ _ _ _ hmem with h1 | h2
      · exact hhead (h1 ▸ List.mem_map_of_mem PDFFile.name hg)
      · exact hdisj g (List.mem_cons_of_mem f hg) h2

theorem extractAll_warn_mem (fs : List PDFFile) (acc : List (String × String)) (f : PDFFile)
    (hf : f ∈ fs) (hempty : pyStrip (extract_text_from_pdf f.content).1 = "") :
    Event.warnNoText f.name ∈ (extractAll acc fs).2 := by
  induction fs generalizing acc with
  | nil => cases hf
  | cons g gs ih =>
    rw [extractAll_cons_snd]
    rcases List.mem_cons.mp hf with rfl | h2
    · apply List.mem_append.mpr
      left
      apply List.mem_cons_of_mem
      apply List.mem_append.mpr
      right
      rw [if_pos (by simp [hempty])]
      exact List.mem_singleton.mpr rfl
    · exact List.mem_append.mpr (Or.inr (ih _ h2))

/-! ### Claim theorems -/

/-- C1: for every model reply whose stripped text parses as a
floating-point number, score_resume returns that value clamped into
[0, 100] inclusive: the result always lies in [0, 100], equals the
parsed value when it is already in range, is 100 for any value above the
range and 0 for any value below it; in particular a reply of "150"
yields 100, a reply of "-20" yields 0, and a reply of "73.5" yields
73.5. -/
theorem C1_score_clamped :
    (∀ (jd text name reply : String) (v : ℚ), pyFloat (pyStrip reply) = some v →
      (0 ≤ (score_resume (fun _ => Except.ok reply) jd text name).1 ∧
        (score_resume (fun _ => Except.ok reply) jd text name).1 ≤ 100) ∧
      (0 ≤ v → v ≤ 100 → (score_resume (fun _ => Except.ok reply) jd text name).1 = v) ∧
      (100 ≤ v → (score_resume (fun _ => Except.ok reply) jd text name).1 = 100) ∧
      (v ≤ 0 → (score_resume (fun _ => Except.ok reply) jd text name).1 = 0)) ∧
    (∀ jd text name : String,
      (score_resume (fun _ => Except.ok "150") jd text name).1 = 100 ∧
      (score_resume (fun _ => Except.ok "-20") jd text name).1 = 0 ∧
      (score_resume (fun _ => Except.ok "73.5") jd text name).1 = 73.5) := by
  constructor
  · intro jd text name reply v hv
    have hres : (score_resume (fun _ => Except.ok reply) jd text name).1 =
        max 0 (min 100 v) := by
      simp only [score_resume, scoreReply, hv]
    rw [hres]
    refine ⟨⟨le_max_left 0 _, max_le (by norm_num) (min_le_left _ _)⟩, ?_, ?_, ?_⟩
    · intro h0 h100
      rw [min_eq_right h100, max_eq_right h0]
    · intro h100
      rw [min_eq_left h100, max_eq_right (by norm_num)]
    · intro h0
      rw [min_eq_right (le_trans h0 (by norm_num)), max_eq_left h0]
  · intro jd text name
    refine ⟨?_, ?_, ?_⟩
    · have h : pyFloat (pyStrip "150") = some 150 := by decide
      simp only [score_resume, scoreReply, h]
      rw [min_eq_left (by norm_num), max_eq_right (by norm_num)]
    · have h : pyFloat (pyStrip "-20") = some (-20) := by decide
      simp only [score_resume, scoreReply, h]
      rw [min_eq_right (by norm_num), max_eq_left (by norm_num)]
    · have h : pyFloat (pyStrip "73.5") = some (Rat.divInt 147 2) := by decide
      have h2 : Rat.divInt 147 2 = (73.5 : ℚ) := by
        rw [Rat.divInt_eq_div]; norm_num
      simp only [score_resume, scoreReply, h, h2]
      rw [min_eq_right (by norm_num), max_eq_right (by norm_num)]

theorem C1_score_clamped_witness :
    (0 ≤ (score_resume (fun _ => Except.ok "42") "" "" "r").1 ∧
      (score_resume (fun _ => Except.ok "42") "" "" "r").1 ≤ 100) ∧
    ((0 : ℚ) ≤ 42 → (42 : ℚ) ≤ 100 →
      (score_resume (fun _ => Except.ok "42") "" "" "r").1 = 42) ∧
    ((100 : ℚ) ≤ 42 → (score_resume (fun _ => Except.ok "42") "" "" "r").1 = 100) ∧
    ((42 : ℚ) ≤ 0 → (score_resume (fun _ => Except.ok "42") "" "" "r").1 = 0) :=
  C1_score_clamped.1 "" "" "r" "42" 42 (by decide)

/-- C2: a model reply that does not parse as a number gives the sentinel
-1 together with a warning naming the resume, and an LLM call that
raises gives exactly the same sentinel result; the exception is never
propagated (the result is always the sentinel pair).  In particular the
replies "N/A" and "Great fit!" both score -1. -/
theorem C2_sentinel_on_failure :
    (∀ jd text name reply : String, pyFloat (pyStrip reply) = none →
      score_resume (fun _ => Except.ok reply) jd text name =
        (-1, [Event.llmCall name, Event.warnScore name])) ∧
    (∀ jd text name err : String,
      score_resume (fun _ => Except.error err) jd text name =
        (-1, [Event.llmCall name, Event.warnScore name])) ∧
    (∀ jd text name : String,
      (score_resume (fun _ => Except.ok "N/A") jd text name).1 = -1 ∧
      (score_resume (fun _ => Except.ok "Great fit!") jd text name).1 = -1) := by
  refine ⟨?_, ?_, ?_⟩
  · intro jd text name reply h
    simp only [score_resume, scoreReply, h]
  · intro jd text name err
    simp only [score_resume, scoreReply]
  · intro jd text name
    constructor
    · have h : pyFloat (pyStrip "N/A") = none := by decide
      simp only [score_resume, scoreReply, h]
    · have h : pyFloat (pyStrip "Great fit!") = none := by decide
      simp only [score_resume, scoreReply, h]

theorem C2_sentinel_on_failure_witness :
    score_resume (fun _ => Except.ok "N/A") "jd" "txt" "r" =
      (-1, [Event.llmCall "r", Event.warnScore "r"]) :=
  C2_sentinel_on_failure.1 "jd" "txt" "r" "N/A" (by decide)

/-- C3: the displayed ranking is ordered by score descending (pairwise
over the whole output), the sort is stable (for every score value the
sublist of entries carrying that score is exactly the input sublist, in
order), the sentinel -1 is always ranked below every valid score (once a
-1 entry appears, given every score is -1 or in [0, 100], everything
after it is -1), and on scores A:80, B:-1, C:95, D:80 submitted in that
order the displayed order is C, A, D, B. -/
theorem C3_ranking :
    (∀ l : List ScoreResult, (sortScores l).Pairwise scoreGE) ∧
    (∀ (l : List ScoreResult) (s : ℚ),
      (sortScores l).filter (fun r => decide (r.score = s)) =
        l.filter (fun r => decide (r.score = s))) ∧
    (∀ l : List ScoreResult,
      (∀ r ∈ l, r.score = -1 ∨ (0 ≤ r.score ∧ r.score ≤ 100)) →
      ∀ i j : Fin (sortScores l).length, i < j →
        ((sortScores l).get i).score = -1 → ((sortScores l).get j).score = -1) ∧
    (sortScores [⟨"A", 80⟩, ⟨"B", -1⟩, ⟨"C", 95⟩, ⟨"D", 80⟩]).map ScoreResult.name =
      ["C", "A", "D", "B"] := by
  refine ⟨sortScores_pairwise, sortScores_filter, ?_, by decide⟩
  intro l hval i j hij hi
  have hle : ((sortScores l).get j).score ≤ ((sortScores l).get i).score :=
    List.pairwise_iff_get.mp (sortScores_pairwise l) i j hij
  have hjl : (sortScores l).get j ∈ l :=
    (sortScores_perm l).mem_iff.mp ((sortScores l).get_mem j.1 j.2)
  rcases hval _ hjl with h | ⟨h0, _⟩
  · exact h
  · exfalso
    rw [hi] at hle
    have habs : (0 : ℚ) ≤ -1 := le_trans h0 hle
    norm_num at habs

theorem C3_ranking_witness :
    ((sortScores [⟨"B", (-1 : ℚ)⟩, ⟨"C", (-1 : ℚ)⟩]).get
      ⟨1, by decide⟩).score = -1 :=
  C3_ranking.2.2.1 [⟨"B", (-1 : ℚ)⟩, ⟨"C", (-1 : ℚ)⟩] (by decide)
    ⟨0, by decide⟩ ⟨1, by decide⟩ (by decide) (by decide)

/-- C4 as stated is false: with the API key unset but the endpoint and
deployment set, a run with one resume and a readable job description
still performs PDF extraction (an extractCall event occurs) before the
configuration error is reported. -/
theorem C4_counterexample :
    main' (some (Except.ok "jd")) [⟨"r.pdf", Except.ok ["text"]⟩]
        ⟨none, some "e", some "d", none⟩ (fun _ => Except.ok "50") =
      [Event.extractCall "r.pdf", Event.errorConfig] ∧
    Event.extractCall "r.pdf" ∈
      main' (some (Except.ok "jd")) [⟨"r.pdf", Except.ok ["text"]⟩]
        ⟨none, some "e", some "d", none⟩ (fun _ => Except.ok "50") := by
  refine ⟨by decide, by decide⟩

/-- C4 (amended): if any of the three required configuration values is
missing, every run that passes the upload checks and the job-description
read reports the fatal configuration error and stops before any scoring:
the trace is exactly the extraction events followed by errorConfig, and
contains no LLM call, no scoring warning and no displayed result.  PDF
extraction, however, has already run at that point (see the
counterexample). -/
theorem C4_config_abort (jd : String) (files : List PDFFile) (env : EnvConfig)
    (llm : List Message → Except String String)
    (hne : files ≠ []) (hlen : files.length ≤ 10) (hcfg : configOk env = false) :
    main' (some (Except.ok jd)) files env llm =
      (extractAll [] files).2 ++ [Event.errorConfig] ∧
    (∀ n, Event.llmCall n ∉ main' (some (Except.ok jd)) files env llm) ∧
    (∀ n, Event.warnScore n ∉ main' (some (Except.ok jd)) files env llm) ∧
    (∀ k n s b, Event.display k n s b ∉ main' (some (Except.ok jd)) files env llm) := by
  have hmain := main'_config_missing jd files env llm hne hlen hcfg
  refine ⟨hmain, ?_, ?_, ?_⟩
  · intro n hmem
    rw [hmain] at hmem
    rcases List.mem_append.mp hmem with h1 | h2
    · rcases extractAll_events_shape _ _ _ h1 with ⟨m, hm⟩ | ⟨m, hm⟩ | ⟨m, hm⟩ <;> simp at hm
    · simp at h2
  · intro n hmem
    rw [hmain] at hmem
    rcases List.mem_append.mp hmem with h1 | h2
    · rcases extractAll_events_shape _ _ _ h1 with ⟨m, hm⟩ | ⟨m, hm⟩ | ⟨m, hm⟩ <;> simp at hm
    · simp at h2
  · intro k n s b hmem
    rw [hmain] at hmem
    rcases List.mem_append.mp hmem with h1 | h2
    · rcases extractAll_events_shape _ _ _ h1 with ⟨m, hm⟩ | ⟨m, hm⟩ | ⟨m, hm⟩ <;> simp at hm
    · simp at h2

theorem C4_config_abort_witness :
    main' (some (Except.ok "jd")) [⟨"a.pdf", Except.ok ["t"]⟩] ⟨none, none, none, none⟩
        (fun _ => Except.ok "50") =
      (extractAll [] [⟨"a.pdf", Except.ok ["t"]⟩]).2 ++ [Event.errorConfig] :=
  (C4_config_abort "jd" [⟨"a.pdf", Except.ok ["t"]⟩] ⟨none, none, none, none⟩
    (fun _ => Except.ok "50") (by simp) (by decide) (by decide)).1

/-- C6: submitting more than 10 resume files makes the too-many warning
the entire trace of the run; no extraction call and no LLM call occurs
for any file, whatever the job-description read would have yielded. -/
theorem C6_too_many_rejected (jdRes : Except String String) (files : List PDFFile)
    (env : EnvConfig) (llm : List Message → Except String String)
    (hlen : files.length > 10) :
    main' (some jdRes) files env llm = [Event.warnTooMany] ∧
    (∀ n, Event.extractCall n ∉ main' (some jdRes) files env llm) ∧
    (∀ n, Event.llmCall n ∉ main' (some jdRes) files env llm) := by
  have h := main'_too_many jdRes files env llm hlen
  refine ⟨h, ?_, ?_⟩ <;> intro n hmem <;> rw [h] at hmem <;> simp at hmem

theorem C6_too_many_rejected_witness :
    main' (some (Except.ok "jd"))
        [⟨"1", Except.ok []⟩, ⟨"2", Except.ok []⟩, ⟨"3", Except.ok []⟩, ⟨"4", Except.ok []⟩,
          ⟨"5", Except.ok []⟩, ⟨"6", Except.ok []⟩, ⟨"7", Except.ok []⟩, ⟨"8", Except.ok []⟩,
          ⟨"9", Except.ok []⟩, ⟨"10", Except.ok []⟩, ⟨"11", Except.ok []⟩]
        ⟨some "k", some "e", some "d", none⟩ (fun _ => Except.ok "50") =
      [Event.warnTooMany] :=
  (C6_too_many_rejected (Except.ok "jd") _ _ _ (by decide)).1

/-- C9: if reading or decoding the job-description file raises, the run
aborts with the read error as the entire trace, before any resume
extraction and before any scoring call. -/
theorem C9_jd_read_failure (e : String) (files : List PDFFile) (env : EnvConfig)
    (llm : List Message → Except String String)
    (hne : files ≠ []) (hlen : files.length ≤ 10) :
    main' (some (Except.error e)) files env llm = [Event.errorJDRead] ∧
    (∀ n, Event.extractCall n ∉ main' (some (Except.error e)) files env llm) ∧
    (∀ n, Event.llmCall n ∉ main' (some (Except.error e)) files env llm) := by
  have h := main'_jd_error e files env llm hne hlen
  refine ⟨h, ?_, ?_⟩ <;> intro n hmem <;> rw [h] at hmem <;> simp at hmem

theorem C9_jd_read_failure_witness :
    main' (some (Except.error "decode error")) [⟨"r.pdf", Except.ok ["t"]⟩]
        ⟨some "k", some "e", some "d", none⟩ (fun _ => Except.ok "50") =
      [Event.errorJDRead] :=
  (C9_jd_read_failure "decode error" [⟨"r.pdf", Except.ok ["t"]⟩]
    ⟨some "k", some "e", some "d", none⟩ (fun _ => Except.ok "50") (by simp) (by decide)).1

/-- C5 as stated is false: the extracted texts are stored in a dict
keyed by filename, so two uploaded files that share the name "r.pdf"
produce a single displayed result, not two — the results list does not
have one entry per uploaded file. -/
theorem C5_counterexample :
    (main' (some (Except.ok "jd"))
        [⟨"r.pdf", Except.ok ["a"]⟩, ⟨"r.pdf", Except.ok ["b"]⟩]
        ⟨some "k", some "e", some "d", none⟩
        (fun _ => Except.ok "50")).countP isDisplayEvent = 1 ∧
    ([(⟨"r.pdf", Except.ok ["a"]⟩ : PDFFile), ⟨"r.pdf", Except.ok ["b"]⟩]).length = 2 := by
  exact ⟨by decide, rfl⟩

/-- C5 (amended): one ScoreResult is produced per distinct filename.
Every run that reaches scoring displays exactly one ranked line per
entry of the extracted-texts dict; when the uploaded filenames are
pairwise distinct this equals the number of uploaded files, but files
sharing a name collapse into one entry (the later file overwrites the
text of the earlier one), as the counterexample shows. -/
theorem C5_one_result_per_name (jd : String) (files : List PDFFile) (env : EnvConfig)
    (llm : List Message → Except String String)
    (hne : files ≠ []) (hlen : files.length ≤ 10) (hcfg : configOk env = true)
    (hnd : (files.map PDFFile.name).Nodup) :
    (main' (some (Except.ok jd)) files env llm).countP isDisplayEvent = files.length := by
  rw [main'_run jd files env llm hne hlen hcfg, List.countP_append, List.countP_append]
  have hE : (extractAll [] files).2.countP isDisplayEvent = 0 := by
    rw [List.countP_eq_zero]
    intro e he
    rcases extractAll_events_shape _ _ _ he with ⟨n, rfl⟩ | ⟨m, rfl⟩ | ⟨n, rfl⟩ <;>
      simp [isDisplayEvent]
  have hS : (scoreAll llm jd (extractAll [] files).1).2.countP isDisplayEvent = 0 := by
    rw [List.countP_eq_zero]
    intro e he
    rcases scoreAll_events_shape _ _ _ _ he with ⟨n, rfl⟩ | ⟨n, rfl⟩ <;>
      simp [isDisplayEvent]
  have hD : (displayRanked 1 (sortScores (scoreAll llm jd (extractAll [] files).1).1)).countP
      isDisplayEvent =
      (displayRanked 1 (sortScores (scoreAll llm jd (extractAll [] files).1).1)).length := by
    rw [List.countP_eq_length]
    intro e he
    rcases displayRanked_shape _ _ _ he with ⟨k, n, s, b, rfl⟩
    simp [isDisplayEvent]
  rw [hE, hS, hD, displayRanked_length, sortScores_length, scoreAll_length]
  rw [extractAll_fst_length_nodup files [] hnd (by intro f hf; simp)]
  simp

theorem C5_one_result_per_name_witness :
    (main' (some (Except.ok "jd"))
        [⟨"a.pdf", Except.ok ["t"]⟩, ⟨"b.pdf", Except.ok ["u"]⟩]
        ⟨some "k", some "e", some "d", none⟩
        (fun _ => Except.ok "50")).countP isDisplayEvent =
      ([(⟨"a.pdf", Except.ok ["t"]⟩ : PDFFile), ⟨"b.pdf", Except.ok ["u"]⟩]).length :=
  C5_one_result_per_name "jd" [⟨"a.pdf", Except.ok ["t"]⟩, ⟨"b.pdf", Except.ok ["u"]⟩]
    ⟨some "k", some "e", some "d", none⟩ (fun _ => Except.ok "50")
    (by simp) (by decide) (by decide) (by decide)

/-- C7: PDF extraction is total at its boundary: a well-formed PDF
yields the concatenation of its page texts in document order with no
error event, a malformed or unreadable input yields exactly the empty
string with an error surfaced, and a run whose resume is malformed still
goes on to score that resume with the empty text (its trace continues
with the scoring events and the ranked display for the empty-text
score). -/
theorem C7_extraction_total :
    (∀ pages : List String,
      extract_text_from_pdf (Except.ok pages) = (String.join pages, [])) ∧
    (∀ e : String,
      extract_text_from_pdf (Except.error e) = ("", [Event.errorPDF e])) ∧
    (∀ (jd name e : String) (env : EnvConfig) (llm : List Message → Except String String),
      configOk env = true →
      main' (some (Except.ok jd)) [⟨name, Except.error e⟩] env llm =
        [Event.extractCall name, Event.errorPDF e, Event.warnNoText name] ++
          (score_resume llm jd "" name).2 ++
          displayRanked 1 [⟨name, (score_resume llm jd "" name).1⟩]) := by
  refine ⟨fun pages => rfl, fun e => rfl, ?_⟩
  intro jd name e env llm hcfg
  rw [main'_run jd [⟨name, Except.error e⟩] env llm (by simp) (by simp) hcfg]
  have h1 : (extractAll [] [⟨name, Except.error e⟩]).1 = [(name, "")] := rfl
  have h2 : (extractAll [] [⟨name, Except.error e⟩]).2 =
      [Event.extractCall name, Event.errorPDF e, Event.warnNoText name] := rfl
  rw [h1, h2]
  have h3 : (scoreAll llm jd [(name, "")]).2 = (score_resume llm jd "" name).2 := by
    rw [scoreAll_cons_snd]
    simp [scoreAll]
  have h4 : sortScores (scoreAll llm jd [(name, "")]).1 =
      [⟨name, (score_resume llm jd "" name).1⟩] := by
    rw [scoreAll_cons_fst]
    rfl
  rw [h3, h4]

theorem C7_extraction_total_witness :
    main' (some (Except.ok "jd")) [⟨"r.pdf", Except.error "bad xref"⟩]
        ⟨some "k", some "e", some "d", none⟩ (fun _ => Except.ok "50") =
      [Event.extractCall "r.pdf", Event.errorPDF "bad xref", Event.warnNoText "r.pdf"] ++
        (score_resume (fun _ => Except.ok "50") "jd" "" "r.pdf").2 ++
        displayRanked 1
          [⟨"r.pdf", (score_resume (fun _ => Except.ok "50") "jd" "" "r.pdf").1⟩] :=
  C7_extraction_total.2.2 "jd" "r.pdf" "bad xref" ⟨some "k", some "e", some "d", none⟩
    (fun _ => Except.ok "50") (by decide)

/-- C8: a resume whose extracted text strips to the empty string
produces the no-text warning naming it, and in any run that reaches
scoring it still appears as a displayed ranked entry under its own name:
it is never skipped. -/
theorem C8_empty_text_still_scored (jd : String) (files : List PDFFile) (env : EnvConfig)
    (llm : List Message → Except String String) (f : PDFFile)
    (hf : f ∈ files) (hlen : files.length ≤ 10) (hcfg : configOk env = true)
    (hempty : pyStrip (extract_text_from_pdf f.content).1 = "") :
    Event.warnNoText f.name ∈ main' (some (Except.ok jd)) files env llm ∧
    (∃ k s b, Event.display k f.name s b ∈ main' (some (Except.ok jd)) files env llm) := by
  have hne : files ≠ [] := List.ne_nil_of_mem hf
  have hrun := main'_run jd files env llm hne hlen hcfg
  constructor
  · rw [hrun]
    exact List.mem_append.mpr (Or.inl (List.mem_append.mpr (Or.inl
      (extractAll_warn_mem files [] f hf hempty))))
  · have hkey : f.name ∈ (extractAll [] files).1.map Prod.fst :=
      extractAll_mem_keys files [] f hf
    rcases List.mem_map.mp hkey with ⟨p, hp, hpname⟩
    have hscore := scoreAll_mem llm jd _ p hp
    have hsorted : (⟨p.1, (score_resume llm jd p.2 p.1).1⟩ : ScoreResult) ∈
        sortScores (scoreAll llm jd (extractAll [] files).1).1 :=
      (sortScores_perm _).mem_iff.mpr hscore
    rcases displayRanked_mem 1 _ _ hsorted with ⟨k, hk⟩
    rw [show (⟨p.1, (score_resume llm jd p.2 p.1).1⟩ : ScoreResult).name = f.name
      from hpname] at hk
    exact ⟨k, (score_resume llm jd p.2 p.1).1,
      decide ((score_resume llm jd p.2 p.1).1 = -1), by
        rw [hrun]
        exact List.mem_append.mpr (Or.inr hk)⟩

theorem C8_empty_text_still_scored_witness :
    Event.warnNoText "r.pdf" ∈
      main' (some (Except.ok "jd")) [⟨"r.pdf", Except.ok []⟩]
        ⟨some "k", some "e", some "d", none⟩ (fun _ => Except.ok "50") ∧
    (∃ k s b, Event.display k "r.pdf" s b ∈
      main' (some (Except.ok "jd")) [⟨"r.pdf", Except.ok []⟩]
        ⟨some "k", some "e", some "d", none⟩ (fun _ => Except.ok "50")) :=
  C8_empty_text_still_scored "jd" [⟨"r.pdf", Except.ok []⟩]
    ⟨some "k", some "e", some "d", none⟩ (fun _ => Except.ok "50") ⟨"r.pdf", Except.ok []⟩
    (List.mem_cons_self _ _) (by decide) (by decide) (by decide)

/-- C10: with at least one uploaded resume, every uploaded file
contributes its name to the extracted-texts dict, the dict is therefore
non-empty, and the no-texts error event never occurs in any run
whatsoever. -/
theorem C10_no_texts_unreachable (files : List PDFFile) (hne : files ≠ []) :
    (∀ f ∈ files, f.name ∈ (extractAll [] files).1.map Prod.fst) ∧
    (extractAll [] files).1 ≠ [] ∧
    (∀ (jd_file : Option (Except String String)) (env : EnvConfig)
      (llm : List Message → Except String String),
      Event.errorNoTexts ∉ main' jd_file files env llm) := by
  refine ⟨fun f hf => extractAll_mem_keys files [] f hf,
    extractAll_fst_ne_nil files [] hne, ?_⟩
  intro jd_file env llm hmem
  cases jd_file with
  | none => simp [main'] at hmem
  | some jdRes =>
    by_cases hlen : files.length > 10
    · rw [main'_too_many jdRes files env llm hlen] at hmem
      simp at hmem
    · have hlen2 : files.length ≤ 10 := not_lt.mp hlen
      cases jdRes with
      | error e =>
        rw [main'_jd_error e files env llm hne hlen2] at hmem
        simp at hmem
      | ok jd =>
        by_cases hcfg : configOk env = true
        · rw [main'_run jd files env llm hne hlen2 hcfg] at hmem
          rcases List.mem_append.mp hmem with h1 | h2
          · rcases List.mem_append.mp h1 with h3 | h4
            · rcases extractAll_events_shape _ _ _ h3 with ⟨n, hn⟩ | ⟨m, hn⟩ | ⟨n, hn⟩ <;>
                simp at hn
            · rcases scoreAll_events_shape _ _ _ _ h4 with ⟨n, hn⟩ | ⟨n, hn⟩ <;> simp at hn
          · rcases displayRanked_shape _ _ _ h2 with ⟨k, n, s, b, hb⟩
            simp at hb
        · have hcfg2 : configOk env = false := by
            cases hc : configOk env
            · rfl
            · exact absurd hc hcfg
          rw [main'_config_missing jd files env llm hne hlen2 hcfg2] at hmem
          rcases List.mem_append.mp hmem with h1 | h2
          · rcases extractAll_events_shape _ _ _ h1 with ⟨n, hn⟩ | ⟨m, hn⟩ | ⟨n, hn⟩ <;>
              simp at hn
          · simp at h2

theorem C10_no_texts_unreachable_witness :
    Event.errorNoTexts ∉
      main' (some (Except.ok "jd")) [⟨"r.pdf", Except.ok ["t"]⟩]
        ⟨some "k", some "e", some "d", none⟩ (fun _ => Except.ok "50") :=
  (C10_no_texts_unreachable [⟨"r.pdf", Except.ok ["t"]⟩] (by simp)).2.2
    (some (Except.ok "jd")) ⟨some "k", some "e", some "d", none⟩ (fun _ => Except.ok "50")
